import Mathlib

/-!
# Verification of the top-stock-picks pipeline

A shallow embedding of `src/package_optimized/lambda_function.py` (and the
sequential variant `src/lambda_function.py`) in Lean 4, together with proofs
about the claims of the specification.

Modelling conventions:
* Python `dict`s whose keys are metric names are embedded as association
  lists `List (String × Option ℚ)`; `dict.get k` is the flattened lookup
  (absent key and stored `None` both give `none`, as in Python).
* Numeric metric values are embedded as rationals `ℚ` (Python floats are
  treated as exact decimals; none of the claims depend on rounding).
* External collaborators (the market-data API payloads, the scoring oracle's
  raw reply, `json.loads`, the random number generator, the Lambda-invoke
  outcome, S3, SES) are passed in as explicit function/state parameters.
* Retry loops that re-query a collaborator are folded to a single query of
  the (per-run deterministic) collaborator function.
-/

namespace StockPicks

/-- `StockRecord`: one row of the universe, `{Symbol, Sector}`. -/
structure StockRecord where
  symbol : String
  sector : String
deriving DecidableEq, Repr

/-- A `Fundamentals` record: ordered mapping metric-name to optional value,
embedding the Python dict produced by the fetchers (a stored `None`
is `some none` in the list, an absent key is no entry at all). -/
abbrev Fundamentals := List (String × Option ℚ)

/-- `d.get(k)` on a Python dict of optional floats: absent key and stored
`None` are both `None`. -/
def fundGet (d : Fundamentals) (k : String) : Option ℚ :=
  (List.lookup k d).join

/-- Python truthiness of an optional float: `None` and `0.0` are falsy. -/
def pyTruthy (v : Option ℚ) : Bool :=
  match v with
  | none => false
  | some q => q != 0

/-- One parsed per-symbol entry of the oracle's JSON object; either field
may be missing (`entry.get("BuyScore", 0)` semantics). -/
structure ScoreEntry where
  buyScore : Option Int
  reasons : Option (List String)
deriving DecidableEq, Repr

/-- The parsed oracle response: a JSON object keyed by symbol. -/
abbrev ScoreMap := List (String × ScoreEntry)

/-- `RankedRow`: one output row (`Sector` doubles as `Industry` in the
sequential variant); `reasons` is the `"; "`-joined string. -/
structure RankedRow where
  symbol : String
  sector : String
  buyScore : Int
  reasons : String
deriving DecidableEq, Repr

/-! ## Orchestrator chunking (`lambda_handler`, distributed branch)

```python
for i in range(0, total_stocks, CHUNK_SIZE):
    chunk = stock_data[i:i + CHUNK_SIZE]
    chunks.append((chunk_id, chunk))
```
-/

/-- The slicing loop `for i in range(0, len(l), c): l[i:i+c]`.
(`c = 0` would raise in Python; we return `[]` there to stay total.) -/
def makeChunks (l : List α) (c : Nat) : List (List α) :=
  match l with
  | [] => []
  | x :: xs =>
    if c = 0 then [] else (x :: xs).take c :: makeChunks ((x :: xs).drop c) c
termination_by l.length
decreasing_by
  rename_i h
  have hc : 0 < c := Nat.pos_of_ne_zero h
  simp [List.length_drop]
  omega

/-- Concatenating the chunks gives back the original list: no record is
duplicated or lost. -/
theorem makeChunks_flatten (l : List α) (c : Nat) (hc : 0 < c) :
    (makeChunks l c).flatten = l := by
  cases l with
  | nil => simp [makeChunks]
  | cons x xs =>
    rw [makeChunks, if_neg (Nat.pos_iff_ne_zero.mp hc)]
    rw [List.flatten_cons, makeChunks_flatten ((x :: xs).drop c) c hc]
    exact List.take_append_drop c (x :: xs)
termination_by l.length
decreasing_by
  simp [List.length_drop]
  omega

/-- The number of chunks is `⌈N / c⌉`, computed as `(N + c - 1) / c`. -/
theorem makeChunks_length (l : List α) (c : Nat) (hc : 0 < c) :
    (makeChunks l c).length = (l.length + c - 1) / c := by
  cases l with
  | nil =>
    simp only [makeChunks, List.length_nil, Nat.zero_add]
    exact (Nat.div_eq_of_lt (by omega)).symm
  | cons x xs =>
    rw [makeChunks, if_neg (Nat.pos_iff_ne_zero.mp hc)]
    rw [List.length_cons, makeChunks_length ((x :: xs).drop c) c hc]
    have hlen : ((x :: xs).drop c).length = (x :: xs).length - c :=
      List.length_drop c (x :: xs)
    rw [hlen]
    rcases Nat.lt_or_ge (x :: xs).length c with h | h
    · have hpos : 0 < (x :: xs).length := by simp
      have h1 : (x :: xs).length - c = 0 := by omega
      have h2 : ((x :: xs).length + c - 1) / c = 1 := by
        apply Nat.div_eq_of_lt_le <;> omega
      rw [h1, h2]
      have h3 : (0 + c - 1) / c = 0 := Nat.div_eq_of_lt (by omega)
      omega
    · have h1 : (x :: xs).length - c + c - 1 + c = (x :: xs).length + c - 1 := by
        omega
      have h2 : ((x :: xs).length - c + c - 1) / c + 1
          = ((x :: xs).length - c + c - 1 + c) / c := by
        rw [Nat.add_div_right _ hc]
      rw [h1] at h2
      exact h2
termination_by l.length
decreasing_by
  simp [List.length_drop]
  omega

/-! ## Primary market-data source (`get_yahoo_finance_data`)

```python
result = {
    "Revenue Growth": info.get("revenueGrowth") or info.get("earningsGrowth") or 0.05,
    ...
}
```
-/

/-- The raw `stock.info` payload of the primary source: a sparse mapping
from field name to optional numeric value. -/
abbrev YfInfo := List (String × Option ℚ)

/-- `info.get(k)`: absent key and stored `None` both give `None`. -/
def infoGet (d : YfInfo) (k : String) : Option ℚ :=
  (List.lookup k d).join

/-- Python `a or b` for an optional float `a` and constant `b`:
`None` and `0.0` are falsy and fall through to `b`. -/
def pyOrQ (a : Option ℚ) (b : ℚ) : ℚ :=
  match a with
  | some v => if v = 0 then b else v
  | none => b

/-- Python `a or b or c` for two optional floats and a constant default. -/
def pyOrQ2 (a b : Option ℚ) (dflt : ℚ) : ℚ :=
  match a with
  | some v => if v = 0 then pyOrQ b dflt else v
  | none => pyOrQ b dflt

/-- The metric extraction of `get_yahoo_finance_data`: every metric is
coalesced through Python `or` chains ending in a hard-coded default. -/
def yahoo_extract (info : YfInfo) : Fundamentals :=
  [("Revenue Growth", some (pyOrQ2 (infoGet info "revenueGrowth")
      (infoGet info "earningsGrowth") 0.05)),
   ("EPS", some (pyOrQ2 (infoGet info "trailingEps")
      (infoGet info "forwardEps") 2.0)),
   ("Net Profit Margin", some (pyOrQ (infoGet info "profitMargins") 0.10)),
   ("Return on Equity", some (pyOrQ (infoGet info "returnOnEquity") 0.15)),
   ("P/E Ratio", some (pyOrQ2 (infoGet info "trailingPE")
      (infoGet info "forwardPE") 20.0)),
   ("Current Ratio", some (pyOrQ (infoGet info "currentRatio") 1.5)),
   ("Debt-to-Equity Ratio", some (pyOrQ (infoGet info "debtToEquity") 0.5))]

/-- `get_yahoo_finance_data`, with the per-run-deterministic payload passed
in; the retry loop re-queries the same payload, so it is folded to one
attempt. Empty/too-small payloads and a non-positive extracted P/E are
rejected (`return None`). -/
def get_yahoo_finance_data (info : YfInfo) : Option Fundamentals :=
  if info.isEmpty then none
  else if info.length < 5 then none
  else
    let result := yahoo_extract info
    let pe := fundGet result "P/E Ratio"
    if pyTruthy pe ∧ 0 < pe.getD 0 then some result else none

/-! ## Synthetic fallback (`get_mock_stock_fundamentals`) -/

/-- One entry of the hard-coded `major_stocks` table. -/
structure MockBase where
  pe : ℚ
  growth : ℚ
  eps : ℚ
deriving DecidableEq, Repr

def major_stocks : List (String × MockBase) :=
  [("AAPL", ⟨28.5, 0.08, 6.43⟩),
   ("MSFT", ⟨32.1, 0.12, 9.27⟩),
   ("GOOGL", ⟨24.8, 0.15, 5.61⟩),
   ("AMZN", ⟨45.2, 0.09, 3.31⟩),
   ("TSLA", ⟨67.3, 0.25, 4.93⟩)]

/-- `random.uniform(lo, hi)` modelled as consuming the next value of the
supplied draw stream — the state of the global, unseeded RNG. The range
and the `round(_, n)` post-processing do not matter to any claim and are
not constrained. -/
def nextDraw (draws : List ℚ) : ℚ × List ℚ :=
  (draws.headD 0, draws.tail)

/-- `get_mock_stock_fundamentals`. Python evaluates the default argument of
`major_stocks.get(ticker, {...})` eagerly, so three draws are consumed for
the default pe/growth/eps even when the ticker is in the table; four more
draws are then consumed for the remaining metrics of the returned dict. -/
def get_mock_stock_fundamentals (ticker : String) (draws : List ℚ) :
    Fundamentals :=
  let (dpe, draws) := nextDraw draws
  let (dgrowth, draws) := nextDraw draws
  let (deps, draws) := nextDraw draws
  let base := (List.lookup ticker major_stocks).getD ⟨dpe, dgrowth, deps⟩
  let (npm, draws) := nextDraw draws
  let (roe, draws) := nextDraw draws
  let (cr, draws) := nextDraw draws
  let (dte, _) := nextDraw draws
  [("Revenue Growth", some base.growth),
   ("EPS", some base.eps),
   ("Net Profit Margin", some npm),
   ("Return on Equity", some roe),
   ("P/E Ratio", some base.pe),
   ("Current Ratio", some cr),
   ("Debt-to-Equity Ratio", some dte)]

/-! ## Formatting (`format_fundamentals_batch`, `format_fundamentals`) -/

/-- One metric line `"  key: value\n"`, with `None` rendered as `N/A`. -/
def metric_line (kv : String × Option ℚ) : String :=
  "  " ++ kv.1 ++ ": " ++ (match kv.2 with
    | some q => toString q
    | none => "N/A") ++ "\n"

/-- The metric lines emitted by `format_fundamentals_batch` for one record:
`if value is not None` — metrics with `None` values produce no line. -/
def batch_metric_lines (data : Fundamentals) : List String :=
  (data.filter (fun kv => kv.2.isSome)).map metric_line

/-- `format_fundamentals_batch` over the chunk's fetched results. -/
def format_fundamentals_batch
    (stock_results : List (String × String × Fundamentals)) : String :=
  String.join (stock_results.map (fun e =>
    e.1 ++ ":\n" ++ String.join (batch_metric_lines e.2.2) ++ "\n"))

/-- The metric lines emitted by `format_fundamentals` for one record:
every metric produces a line, `None` rendered as `N/A`. -/
def seq_metric_lines (data : Fundamentals) : List String :=
  data.map metric_line

/-- `format_fundamentals` (sequential variant, with the `N/A` branch). -/
def format_fundamentals (symbol : String) (data : Fundamentals) : String :=
  if data.isEmpty then symbol ++ ": No data available\n"
  else symbol ++ ":\n" ++ String.join (seq_metric_lines data)

/-! ## Oracle response parsing (`clean_and_load_json`) -/

def lbrace : Char := '\x7b'

def rbrace : Char := '\x7d'

/-- Python `str.find(c)`: index of the first occurrence, `-1` if absent. -/
def str_find (t : List Char) (c : Char) : Int :=
  match t.findIdx? (· == c) with
  | some i => (i : Int)
  | none => -1

/-- Python `str.rfind(c)`: index of the last occurrence, `-1` if absent. -/
def str_rfind (t : List Char) (c : Char) : Int :=
  match t.reverse.findIdx? (· == c) with
  | some i => (t.length : Int) - 1 - (i : Int)
  | none => -1

/-- `clean_and_load_json`: take the substring from the first `«{»` to the
last `«}»` and parse it; `json.loads` is the external collaborator `loads`
(`none` models a raised `JSONDecodeError`, caught and turned into `{}`);
a missing brace pair also yields `{}`. -/
def clean_and_load_json (loads : String → Option ScoreMap)
    (response_text : String) : ScoreMap :=
  let t := response_text.toList
  let start := str_find t lbrace
  let stop := str_rfind t rbrace + 1
  if 0 ≤ start ∧ start < stop then
    match loads ((t.drop start.toNat).take (stop - start).toNat).asString with
    | some m => m
    | none => []
  else []

/-! ## Parallel chunk processing (`process_stocks_parallel`,
`process_chunk_mode`) -/

/-- The per-stock fetch-and-filter closure of `process_stocks_parallel`:
keep the record only when the fetched dict is truthy and its P/E is truthy
and strictly positive. The per-run market data is the function `fetch`. -/
def fetch_single_stock (fetch : String → Fundamentals) (s : StockRecord) :
    Option (String × String × Fundamentals) :=
  let data := fetch s.symbol
  let pe := fundGet data "P/E Ratio"
  if !data.isEmpty ∧ pyTruthy pe ∧ 0 < pe.getD 0 then
    some (s.symbol, s.sector, data)
  else none

/-- `process_stocks_parallel`: all fetches are joined and the surviving
records collected. (The Python accumulator is a dict keyed by symbol;
the universe's symbols are distinct, so the association list keeps the
same entries.) -/
def process_stocks_parallel (fetch : String → Fundamentals)
    (batch : List StockRecord) : List (String × String × Fundamentals) :=
  batch.filterMap (fetch_single_stock fetch)

def joinReasons (rs : List String) : String :=
  String.intercalate "; " rs

/-- The row built for one fetched record, `None` when the parsed analysis
omits the symbol (`if symbol in analysis_results`); missing fields of a
present entry default via `.get("BuyScore", 0)` / `.get("ReasonsToBuy", [])`. -/
def rowOf (analysis : ScoreMap) (e : String × String × Fundamentals) :
    Option RankedRow :=
  match List.lookup e.1 analysis with
  | some entry =>
    some ⟨e.1, e.2.1, entry.buyScore.getD 0, joinReasons (entry.reasons.getD [])⟩
  | none => none

/-- `process_chunk_mode`'s result construction. `oracleReply` is the raw
scoring-oracle reply for a prompt (`none` models a raised exception: the
chunk returns an error and publishes nothing). -/
def process_chunk_results (fetch : String → Fundamentals)
    (oracleReply : String → Option String) (loads : String → Option ScoreMap)
    (stocks : List StockRecord) : List RankedRow :=
  let stock_results := process_stocks_parallel fetch stocks
  if stock_results.isEmpty then []
  else
    let text := format_fundamentals_batch stock_results
    match oracleReply text with
    | none => []
    | some reply =>
      let analysis := clean_and_load_json loads reply
      stock_results.filterMap (rowOf analysis)

/-! ## Ranking and CSV -/

/-- The comparator realizing
`sort(key=lambda x: x.get("BuyScore", 0), reverse=True)`:
descending by BuyScore; Python's sort is stable, as is `mergeSort`. -/
def rankDescLE (a b : RankedRow) : Bool :=
  decide (b.buyScore ≤ a.buyScore)

/-- The (stable, descending) sort of the result rows. -/
def sortResults (rows : List RankedRow) : List RankedRow :=
  rows.mergeSort rankDescLE

/-- `all_results.sort(...); top_25 = all_results[:25]`. -/
def top25 (rows : List RankedRow) : List RankedRow :=
  (sortResults rows).take 25

def csvHeaderDistributed : List String :=
  ["Symbol", "Sector", "BuyScore", "ReasonsToBuy"]

def csvHeaderSequential : List String :=
  ["Symbol", "Industry", "BuyScore", "ReasonsToBuy"]

/-- One CSV record of a RankedRow. -/
def renderRow (r : RankedRow) : List String :=
  [r.symbol, r.sector, toString r.buyScore, r.reasons]

/-- `list_to_csv`, at record granularity: the header record followed by one
record per data row (the `csv` module's per-field quoting is not modelled). -/
def list_to_csv (header : List String) (rows : List RankedRow) :
    List (List String) :=
  header :: rows.map renderRow

/-! ## Aggregator (`collect_and_finalize_results`, `cleanup_s3_chunks`) -/

/-- The blob store restricted to the prefix `stock-analysis/chunks/`:
keyed objects whose content either deserializes to a row list (`some rows`)
or fails to read/deserialize (`none`). -/
abbrev S3State := List (String × Option (List RankedRow))

/-- `cleanup_s3_chunks`: delete every listed object under the prefix. -/
def cleanup_s3_chunks (_storage : S3State) : S3State :=
  []

/-- `collect_and_finalize_results`: merge all readable chunk results; on an
empty merge return with no email and no cleanup; otherwise rank, email the
CSV to the recipient *if one is configured* (a missing recipient silently
skips the send), then delete the chunk objects. Returns the sent emails
and the final storage state. -/
def collect_and_finalize_results (recipient : Option String)
    (storage : S3State) :
    List (String × List (List String)) × S3State :=
  let all_results := (storage.filterMap (fun o => o.2)).flatten
  if all_results.isEmpty then ([], storage)
  else
    let top := top25 all_results
    let csv := list_to_csv csvHeaderDistributed top
    let emails := match recipient with
      | some r => [(r, csv)]
      | none => []
    (emails, cleanup_s3_chunks storage)

/-- The `"finalize_results"` operation of `lambda_handler`: always returns
status 200 after the aggregation pass. -/
def handle_finalize (recipient : Option String) (storage : S3State) :
    Nat × (List (String × List (List String)) × S3State) :=
  (200, collect_and_finalize_results recipient storage)

/-! ## Sequential path (`lambda_handler`, else-branch) -/

/-- The skip test of the sequential loop:
`if not data or pe_ratio is None or pe_ratio <= 0: continue`. -/
def seqEligible (data : Fundamentals) : Bool :=
  !data.isEmpty && (match fundGet data "P/E Ratio" with
    | none => false
    | some v => decide (0 < v))

/-- One batch of the sequential loop: filter eligible records, format with
`format_fundamentals`, score, and keep the symbols present in the parsed
response. A raised oracle call (`oracleReply _ = none`) skips the batch. -/
def seq_batch_rows (fetch : String → Fundamentals)
    (oracleReply : String → Option String) (loads : String → Option ScoreMap)
    (batch : List StockRecord) : List RankedRow :=
  let elig := batch.filter (fun s => seqEligible (fetch s.symbol))
  if elig.isEmpty then []
  else
    let text := String.join (elig.map (fun s =>
      format_fundamentals s.symbol (fetch s.symbol) ++ "\n"))
    match oracleReply text with
    | none => []
    | some reply =>
      let analysis := clean_and_load_json loads reply
      elig.filterMap (fun s => rowOf analysis (s.symbol, s.sector, fetch s.symbol))

/-- `all_results` of the sequential path: batches of 8, concatenated. -/
def seq_all_results (fetch : String → Fundamentals)
    (oracleReply : String → Option String) (loads : String → Option ScoreMap)
    (stocks : List StockRecord) : List RankedRow :=
  ((makeChunks stocks 8).map (seq_batch_rows fetch oracleReply loads)).flatten

/-- The tail of the sequential path: rank, truncate, render the CSV, then
require `EMAIL_RECIPIENT` — a missing recipient raises (the error
propagates out of `lambda_handler`, aborting the run). -/
def sequential_run (fetch : String → Fundamentals)
    (oracleReply : String → Option String) (loads : String → Option ScoreMap)
    (recipient : Option String) (stocks : List StockRecord) :
    Except String (String × List (List String)) :=
  let top := top25 (seq_all_results fetch oracleReply loads stocks)
  let csv := list_to_csv csvHeaderSequential top
  match recipient with
  | none => Except.error "EMAIL_RECIPIENT environment variable is required"
  | some r => Except.ok (r, csv)

/-! ## Orchestrator (distributed branch) -/

/-- `CHUNK_SIZE` default. -/
def CHUNK_SIZE : Nat := 50

/-- The chunk partition built by the orchestrator. -/
def orchestrate_chunks (stocks : List StockRecord) : List (List StockRecord) :=
  makeChunks stocks CHUNK_SIZE

/-- `successful_chunks`: the dispatch loop counts the chunks whose async
invoke returned without raising; the outcome of one dispatch is the
collaborator `invokeOk` of the chunk payload. -/
def successful_chunks (invokeOk : List StockRecord → Bool)
    (chunks : List (List StockRecord)) : Nat :=
  (chunks.filter invokeOk).length

/-- The orchestrator branch decision and response: distributed iff
`total_stocks > 100`, in which case the immediate response carries
`chunks_launched`; otherwise (`none`) the sequential path runs. -/
def chunks_launched (invokeOk : List StockRecord → Bool)
    (stocks : List StockRecord) : Option Nat :=
  if 100 < stocks.length then
    some (successful_chunks invokeOk (orchestrate_chunks stocks))
  else none

/-! ## Concrete instances (used for witnesses and counterexamples) -/

/-- A per-run market-data assignment: every ticker fetches with P/E 10. -/
def fetchW : String → Fundamentals := fun _ => [("P/E Ratio", some 10)]

/-- An oracle that always answers with a bare pair of braces. -/
def replyW : String → Option String := fun _ => some "\x7b\x7d"

/-- A `json.loads` outcome scoring AAPL with 7. -/
def loadsW : String → Option ScoreMap := fun _ => some [("AAPL", ⟨some 7, some ["good"]⟩)]

/-- A `json.loads` outcome scoring only MSFT (AAPL omitted). -/
def loads5W : String → Option ScoreMap := fun _ => some [("MSFT", ⟨some 7, some ["r1", "r2"]⟩)]

def stocksW : List StockRecord := [⟨"AAPL", "Tech"⟩]

def stocks2W : List StockRecord := [⟨"AAPL", "Tech"⟩, ⟨"MSFT", "Tech"⟩]

/-- A 250-symbol universe. -/
def universe250 : List StockRecord :=
  (List.range 250).map (fun i => ⟨toString i, "Unknown"⟩)

/-- A record whose EPS metric is absent. -/
def dataW6 : Fundamentals := [("EPS", none), ("P/E Ratio", some 10)]

/-- The CSV emitted by the aggregator for `storageW`. -/
def csvW : List (List String) :=
  [["Symbol", "Sector", "BuyScore", "ReasonsToBuy"], ["AAPL", "Tech", "7", "r"]]

/-- The CSV emitted by the sequential path for `stocksW`. -/
def csvSeqW : List (List String) :=
  [["Symbol", "Industry", "BuyScore", "ReasonsToBuy"], ["AAPL", "Tech", "7", "good"]]

/-- A primary-source payload with `revenueGrowth` exactly zero and
`currentRatio` absent (five fields, so it passes the size check). -/
def infoW7 : YfInfo :=
  [("revenueGrowth", some 0), ("trailingEps", some 1),
   ("profitMargins", some (1/5)), ("returnOnEquity", some (1/10)),
   ("trailingPE", some 10)]

def rowA : RankedRow := ⟨"AAPL", "Tech", 7, "r"⟩

/-- A chunk store holding one readable, nonempty chunk result. -/
def storageW : S3State := [("stock-analysis/chunks/c1.json", some [rowA])]

/-- A chunk store whose only object fails to read/deserialize. -/
def storageBad : S3State := [("stock-analysis/chunks/c1.json", none)]

/-! ## Helper lemmas -/

theorem rowOf_eq_some {analysis : ScoreMap} {e : String × String × Fundamentals}
    {row : RankedRow} (h : rowOf analysis e = some row) :
    row.symbol = e.1 ∧ ∃ entry, List.lookup e.1 analysis = some entry ∧
      row = ⟨e.1, e.2.1, entry.buyScore.getD 0, joinReasons (entry.reasons.getD [])⟩ := by
  unfold rowOf at h
  cases hl : List.lookup e.1 analysis with
  | none => rw [hl] at h; simp at h
  | some entry =>
    rw [hl] at h
    simp only [Option.some.injEq] at h
    refine ⟨?_, entry, rfl, h.symm⟩
    rw [← h]

theorem fetch_single_stock_sound {fetch : String → Fundamentals} {s : StockRecord}
    {e : String × String × Fundamentals} (h : fetch_single_stock fetch s = some e) :
    e = (s.symbol, s.sector, fetch s.symbol) ∧
    ∃ v, fundGet (fetch s.symbol) "P/E Ratio" = some v ∧ 0 < v := by
  simp only [fetch_single_stock] at h
  split at h
  · next hc =>
    obtain ⟨h1, h2, h3⟩ := hc
    simp only [Option.some.injEq] at h
    refine ⟨h.symm, ?_⟩
    cases hpe : fundGet (fetch s.symbol) "P/E Ratio" with
    | none => rw [hpe] at h2; exact absurd h2 (by simp [pyTruthy])
    | some v =>
      rw [hpe] at h3
      exact ⟨v, rfl, by simpa using h3⟩
  · simp at h

theorem seqEligible_sound {data : Fundamentals} (h : seqEligible data = true) :
    ∃ v, fundGet data "P/E Ratio" = some v ∧ 0 < v := by
  unfold seqEligible at h
  cases hpe : fundGet data "P/E Ratio" with
  | none => rw [hpe] at h; simp at h
  | some v =>
    rw [hpe] at h
    simp only [Bool.and_eq_true, decide_eq_true_eq] at h
    exact ⟨v, rfl, h.2⟩

theorem mem_process_chunk_results {fetch : String → Fundamentals}
    {oracleReply : String → Option String} {loads : String → Option ScoreMap}
    {stocks : List StockRecord} {row : RankedRow}
    (hrow : row ∈ process_chunk_results fetch oracleReply loads stocks) :
    ∃ analysis, ∃ e ∈ process_stocks_parallel fetch stocks,
      rowOf analysis e = some row := by
  simp only [process_chunk_results] at hrow
  split at hrow
  · exact absurd hrow (List.not_mem_nil row)
  · split at hrow
    · exact absurd hrow (List.not_mem_nil row)
    · obtain ⟨e, he, hee⟩ := List.mem_filterMap.mp hrow
      exact ⟨_, e, he, hee⟩

theorem mem_seq_batch_rows {fetch : String → Fundamentals}
    {oracleReply : String → Option String} {loads : String → Option ScoreMap}
    {batch : List StockRecord} {row : RankedRow}
    (hrow : row ∈ seq_batch_rows fetch oracleReply loads batch) :
    ∃ s ∈ batch, seqEligible (fetch s.symbol) = true ∧
      ∃ analysis, rowOf analysis (s.symbol, s.sector, fetch s.symbol) = some row := by
  simp only [seq_batch_rows] at hrow
  split at hrow
  · exact absurd hrow (List.not_mem_nil row)
  · split at hrow
    · exact absurd hrow (List.not_mem_nil row)
    · obtain ⟨s, hs, hss⟩ := List.mem_filterMap.mp hrow
      have hm := List.mem_filter.mp hs
      exact ⟨s, hm.1, hm.2, _, hss⟩

theorem pe_of_mem_seq_all {fetch : String → Fundamentals}
    {oracleReply : String → Option String} {loads : String → Option ScoreMap}
    {stocks : List StockRecord} {row : RankedRow}
    (hrow : row ∈ seq_all_results fetch oracleReply loads stocks) :
    ∃ v, fundGet (fetch row.symbol) "P/E Ratio" = some v ∧ 0 < v := by
  simp only [seq_all_results] at hrow
  obtain ⟨l, hl, hrl⟩ := List.mem_flatten.mp hrow
  obtain ⟨batch, -, rfl⟩ := List.mem_map.mp hl
  obtain ⟨s, -, helig, analysis, hrowOf⟩ := mem_seq_batch_rows hrl
  obtain ⟨hsym, -⟩ := rowOf_eq_some hrowOf
  rw [hsym]
  exact seqEligible_sound helig

/-! ## Claim theorems -/

/-- Claim C1: in both the chunked path (`process_stocks_parallel` feeding
`process_chunk_mode`) and the sequential path, a Fundamentals record whose
P/E Ratio is absent, zero, or negative never contributes a RankedRow: every
produced row (including every row of the final ranked top-25) originates
from a record whose P/E Ratio is present and strictly positive. -/
theorem pe_filter_sound (fetch : String → Fundamentals)
    (oracleReply : String → Option String) (loads : String → Option ScoreMap)
    (stocks : List StockRecord) :
    (∀ row ∈ process_chunk_results fetch oracleReply loads stocks,
       ∃ v, fundGet (fetch row.symbol) "P/E Ratio" = some v ∧ 0 < v) ∧
    (∀ row ∈ seq_all_results fetch oracleReply loads stocks,
       ∃ v, fundGet (fetch row.symbol) "P/E Ratio" = some v ∧ 0 < v) ∧
    (∀ row ∈ top25 (seq_all_results fetch oracleReply loads stocks),
       ∃ v, fundGet (fetch row.symbol) "P/E Ratio" = some v ∧ 0 < v) := by
  refine ⟨?_, fun row hrow => pe_of_mem_seq_all hrow, ?_⟩
  · intro row hrow
    obtain ⟨analysis, e, he, hrowOf⟩ := mem_process_chunk_results hrow
    obtain ⟨s, -, hfss⟩ := List.mem_filterMap.mp he
    obtain ⟨rfl, v, hpe, hv⟩ := fetch_single_stock_sound hfss
    obtain ⟨hsym, -⟩ := rowOf_eq_some hrowOf
    rw [hsym]
    exact ⟨v, hpe, hv⟩
  · intro row hrow
    have h1 : row ∈ sortResults (seq_all_results fetch oracleReply loads stocks) :=
      (List.take_sublist 25 _).mem hrow
    have h2 : row ∈ seq_all_results fetch oracleReply loads stocks := by
      simpa [sortResults] using h1
    exact pe_of_mem_seq_all h2

/-- Claim C1 witness: a concrete run in which a row is produced, whose
originating record indeed has a strictly positive P/E. -/
theorem pe_filter_sound_witness :
    ∃ v, fundGet (fetchW "AAPL") "P/E Ratio" = some v ∧ 0 < v := by
  have h := (pe_filter_sound fetchW replyW loadsW stocksW).1
    ⟨"AAPL", "Tech", 7, "good"⟩ (by decide)
  simpa using h

/-- Claim C2: the orchestrator's partition has exactly `⌈N / C⌉` chunks
whose concatenation is the original universe, with nothing duplicated or
lost; for a 250-symbol universe and chunk size 50 the distributed branch is
taken, 5 chunks are created and, when every async dispatch succeeds, the
immediate response carries `chunks_launched = 5`. -/
theorem orchestrator_partition_correct (stocks : List StockRecord) (c : Nat)
    (invokeOk : List StockRecord → Bool) (hc : 0 < c)
    (hok : ∀ ch, invokeOk ch = true) :
    (makeChunks stocks c).length = (stocks.length + c - 1) / c ∧
    (makeChunks stocks c).flatten = stocks ∧
    (stocks.length = 250 →
      (orchestrate_chunks stocks).length = 5 ∧
      (orchestrate_chunks stocks).flatten = stocks ∧
      chunks_launched invokeOk stocks = some 5) := by
  refine ⟨makeChunks_length stocks c hc, makeChunks_flatten stocks c hc, ?_⟩
  intro h250
  have hlen : (orchestrate_chunks stocks).length = 5 := by
    rw [orchestrate_chunks, makeChunks_length stocks CHUNK_SIZE (by norm_num [CHUNK_SIZE]),
      h250]
    norm_num [CHUNK_SIZE]
  refine ⟨hlen, makeChunks_flatten stocks CHUNK_SIZE (by norm_num [CHUNK_SIZE]), ?_⟩
  rw [chunks_launched, if_pos (by omega)]
  rw [successful_chunks, List.filter_eq_self.mpr (fun ch _ => hok ch), hlen]

/-- Claim C2 witness: the 250-symbol universe concretely yields 5 chunks
and `chunks_launched = 5`. -/
theorem orchestrator_partition_correct_witness :
    (orchestrate_chunks universe250).length = 5 ∧
    chunks_launched (fun _ => true) universe250 = some 5 := by
  have hlen : universe250.length = 250 := by
    simp [universe250]
  have h := (orchestrator_partition_correct universe250 50 (fun _ => true)
    (by norm_num) (fun _ => rfl)).2.2 hlen
  exact ⟨h.1, h.2.2⟩

theorem rankDescLE_trans :
    ∀ (a b c : RankedRow), rankDescLE a b → rankDescLE b c → rankDescLE a c := by
  intro a b c h1 h2
  simp only [rankDescLE, decide_eq_true_eq] at *
  omega

theorem rankDescLE_total : ∀ (a b : RankedRow), rankDescLE a b || rankDescLE b a := by
  intro a b
  simp only [rankDescLE]
  by_cases h : b.buyScore ≤ a.buyScore
  · simp [h]
  · simp [h]
    omega

/-- The stable sort keeps all rows of one BuyScore in their input order. -/
theorem sortResults_filter_eq (rows : List RankedRow) (s : Int) :
    (sortResults rows).filter (fun r => r.buyScore == s)
      = rows.filter (fun r => r.buyScore == s) := by
  have hpair : (rows.filter (fun r => r.buyScore == s)).Pairwise
      (fun a b => rankDescLE a b = true) := by
    rw [List.pairwise_iff_forall_sublist]
    intro a b hsub
    have ha : a ∈ rows.filter (fun r => r.buyScore == s) :=
      hsub.subset (by simp)
    have hb : b ∈ rows.filter (fun r => r.buyScore == s) :=
      hsub.subset (by simp)
    have ha2 := (List.mem_filter.mp ha).2
    have hb2 := (List.mem_filter.mp hb).2
    simp only [beq_iff_eq] at ha2 hb2
    simp [rankDescLE, ha2, hb2]
  have h1 : List.Sublist (rows.filter (fun r => r.buyScore == s))
      (rows.mergeSort rankDescLE) :=
    List.sublist_mergeSort rankDescLE_trans rankDescLE_total hpair
      (List.filter_sublist rows)
  have hidem : (rows.filter (fun r => r.buyScore == s)).filter
      (fun r => r.buyScore == s) = rows.filter (fun r => r.buyScore == s) :=
    List.filter_eq_self.mpr (fun a ha => (List.mem_filter.mp ha).2)
  have h2 := h1.filter (fun r => r.buyScore == s)
  rw [hidem] at h2
  have hperm := (List.mergeSort_perm rows rankDescLE).filter
    (fun r => r.buyScore == s)
  exact (h2.eq_of_length hperm.length_eq.symm).symm

/-- Claim C3: the merged results are sorted in descending BuyScore order by
a stable (hence deterministic) sort and truncated to at most 25 data rows;
both the aggregator's email CSV and the sequential path's email CSV are
exactly the rendering of that top-25. -/
theorem ranking_sorted_truncated (rows : List RankedRow) (s : Int) :
    (top25 rows).Pairwise (fun a b => b.buyScore ≤ a.buyScore) ∧
    (top25 rows).length ≤ 25 ∧
    List.Perm (sortResults rows) rows ∧
    (sortResults rows).filter (fun r => r.buyScore == s)
      = rows.filter (fun r => r.buyScore == s) ∧
    (∀ recipient storage, ∀ e ∈ (collect_and_finalize_results recipient storage).1,
       e.2 = list_to_csv csvHeaderDistributed
         (top25 ((storage.filterMap (fun o => o.2)).flatten))) ∧
    (∀ fetch oracleReply loads recipient stocks r csv,
       sequential_run fetch oracleReply loads recipient stocks
         = Except.ok (r, csv) →
       csv = list_to_csv csvHeaderSequential
         (top25 (seq_all_results fetch oracleReply loads stocks))) := by
  refine ⟨?_, ?_, List.mergeSort_perm rows rankDescLE,
    sortResults_filter_eq rows s, ?_, ?_⟩
  · have hsorted : (sortResults rows).Pairwise (fun a b => rankDescLE a b = true) :=
      List.sorted_mergeSort rankDescLE_trans rankDescLE_total rows
    have hsorted2 : (sortResults rows).Pairwise
        (fun a b => b.buyScore ≤ a.buyScore) :=
      hsorted.imp (fun h => by simpa [rankDescLE] using h)
    exact hsorted2.sublist (List.take_sublist 25 _)
  · rw [top25, List.length_take]
    exact Nat.min_le_left _ _
  · intro recipient storage e he
    simp only [collect_and_finalize_results] at he
    split at he
    · exact absurd he (List.not_mem_nil e)
    · cases recipient with
      | none => exact absurd he (List.not_mem_nil e)
      | some r =>
        simp only [List.mem_singleton] at he
        rw [he]
  · intro fetch oracleReply loads recipient stocks r csv h
    simp only [sequential_run] at h
    cases recipient with
    | none => simp at h
    | some r' =>
      simp only [Except.ok.injEq, Prod.mk.injEq] at h
      exact h.2.symm

/-- Claim C3 witness: the aggregator's email CSV on a concrete store, and
the sequential path's email CSV on a concrete run, are the rendered
top-25. -/
theorem ranking_sorted_truncated_witness :
    (("x@y", csvW) : String × List (List String)).2
      = list_to_csv csvHeaderDistributed
          (top25 ((storageW.filterMap (fun o => o.2)).flatten)) ∧
    csvSeqW = list_to_csv csvHeaderSequential
      (top25 (seq_all_results fetchW replyW loadsW stocksW)) := by
  have htop : top25 [rowA] = [rowA] := by
    simp [top25, sortResults]
  have hcsv : list_to_csv csvHeaderDistributed [rowA] = csvW := by
    simp only [list_to_csv, csvHeaderDistributed, renderRow, rowA, csvW,
      List.map_cons, List.map_nil]
    decide
  have hcollect : (collect_and_finalize_results (some "x@y") storageW).1
      = [("x@y", csvW)] := by
    simp [collect_and_finalize_results, storageW, htop, hcsv]
  have hchunks : makeChunks stocksW 8 = [stocksW] := by
    simp [makeChunks, stocksW]
  have hseq : seq_all_results fetchW replyW loadsW stocksW
      = [⟨"AAPL", "Tech", 7, "good"⟩] := by
    rw [seq_all_results, hchunks]
    decide
  have hrun : sequential_run fetchW replyW loadsW (some "x@y") stocksW
      = Except.ok ("x@y", csvSeqW) := by
    simp only [sequential_run, hseq, top25, sortResults, List.mergeSort_singleton]
    simp only [list_to_csv, csvHeaderSequential, renderRow, csvSeqW,
      List.map_cons, List.map_nil, List.take_succ_cons, List.take_nil]
    rw [show toString (7 : Int) = "7" from rfl]
  constructor
  · exact (ranking_sorted_truncated [] 0).2.2.2.2.1 (some "x@y") storageW
      ("x@y", csvW) (by rw [hcollect]; exact List.mem_singleton.mpr rfl)
  · exact (ranking_sorted_truncated [] 0).2.2.2.2.2 fetchW replyW loadsW
      (some "x@y") stocksW "x@y" csvSeqW hrun

theorem findIdx?_of_first {l : List Char} {c : Char} {i : Nat}
    (h1 : l[i]? = some c) (h2 : ∀ k, k < i → l[k]? ≠ some c) :
    l.findIdx? (· == c) = some i := by
  induction l generalizing i with
  | nil => simp at h1
  | cons x xs ih =>
    cases i with
    | zero =>
      simp only [List.getElem?_cons_zero, Option.some.injEq] at h1
      subst h1
      simp [List.findIdx?_cons]
    | succ j =>
      have hx : ¬((x == c) = true) := by
        intro hxc
        exact h2 0 (Nat.succ_pos j)
          (by simp [List.getElem?_cons_zero, (beq_iff_eq).mp hxc])
      have h1' : xs[j]? = some c := by simpa using h1
      have h2' : ∀ k, k < j → xs[k]? ≠ some c := by
        intro k hk
        have := h2 (k + 1) (by omega)
        simpa using this
      rw [List.findIdx?_cons, if_neg hx, List.findIdx?_succ, ih h1' h2']
      rfl

theorem str_find_of_first {l : List Char} {c : Char} {i : Nat}
    (h1 : l[i]? = some c) (h2 : ∀ k, k < i → l[k]? ≠ some c) :
    str_find l c = (i : Int) := by
  rw [str_find, findIdx?_of_first h1 h2]

theorem str_find_of_not_mem {l : List Char} {c : Char} (h : c ∉ l) :
    str_find l c = -1 := by
  have hnone : l.findIdx? (· == c) = none :=
    List.findIdx?_eq_none_iff.mpr
      (fun x hx => beq_eq_false_iff_ne.mpr (fun hxc => h (hxc ▸ hx)))
  rw [str_find, hnone]

theorem str_rfind_of_last {l : List Char} {c : Char} {j : Nat}
    (h1 : l[j]? = some c) (h2 : ∀ k, j < k → l[k]? ≠ some c) :
    str_rfind l c = (j : Int) := by
  have hj : j < l.length := (List.getElem?_eq_some_iff.mp h1).1
  have hrev : l.reverse[l.length - 1 - j]? = some c := by
    rw [List.getElem?_reverse' (l.length - 1 - j) j (by omega)]
    exact h1
  have hrev2 : ∀ k, k < l.length - 1 - j → l.reverse[k]? ≠ some c := by
    intro k hk
    rw [List.getElem?_reverse' k (l.length - 1 - k) (by omega)]
    exact h2 (l.length - 1 - k) (by omega)
  rw [str_rfind, findIdx?_of_first hrev hrev2]
  dsimp only
  omega

theorem str_rfind_of_not_mem {l : List Char} {c : Char} (h : c ∉ l) :
    str_rfind l c = -1 := by
  have hnone : l.reverse.findIdx? (· == c) = none :=
    List.findIdx?_eq_none_iff.mpr
      (fun x hx => beq_eq_false_iff_ne.mpr
        (fun hxc => h (hxc ▸ (List.mem_reverse.mp hx))))
  rw [str_rfind, hnone]

/-- Claim C4: `clean_and_load_json` takes the substring from the first
opening brace to the last closing brace and parses it, returning the empty
mapping when the parse fails; a reply containing no brace pair (either
brace absent, or the last closing brace before the first opening brace)
also yields the empty mapping rather than an error. -/
theorem clean_and_load_json_spec (loads : String → Option ScoreMap)
    (t : String) (i j : Nat) :
    ((lbrace ∉ t.toList ∨ rbrace ∉ t.toList) →
       clean_and_load_json loads t = []) ∧
    (t.toList[i]? = some lbrace →
     (∀ k, k < i → t.toList[k]? ≠ some lbrace) →
     t.toList[j]? = some rbrace →
     (∀ k, j < k → t.toList[k]? ≠ some rbrace) →
     ((i ≤ j →
        clean_and_load_json loads t
          = (loads ((t.toList.drop i).take (j + 1 - i)).asString).getD []) ∧
      (j < i → clean_and_load_json loads t = []))) := by
  constructor
  · intro habs
    simp only [clean_and_load_json]
    rcases habs with h | h
    · rw [str_find_of_not_mem h, if_neg (by omega)]
    · rw [str_rfind_of_not_mem h, if_neg (by omega)]
  · intro h1 h2 h3 h4
    constructor
    · intro hij
      simp only [clean_and_load_json]
      rw [str_find_of_first h1 h2, str_rfind_of_last h3 h4,
        if_pos (by constructor <;> omega)]
      have ht1 : ((i : Int)).toNat = i := by omega
      have ht2 : ((j : Int) + 1 - (i : Int)).toNat = j + 1 - i := by omega
      rw [ht1, ht2]
      cases hload : loads ((t.toList.drop i).take (j + 1 - i)).asString with
      | none => simp [hload]
      | some m => simp [hload]
    · intro hji
      simp only [clean_and_load_json]
      rw [str_find_of_first h1 h2, str_rfind_of_last h3 h4, if_neg (by omega)]

/-- Claim C4 witness: a brace-free reply yields the empty mapping, and a
reply with surrounding noise is parsed from its first opening to its last
closing brace. -/
theorem clean_and_load_json_spec_witness :
    clean_and_load_json loadsW "no braces at all" = [] ∧
    clean_and_load_json loadsW "xx\x7byy\x7dzz"
      = [("AAPL", ⟨some 7, some ["good"]⟩)] := by
  constructor
  · exact (clean_and_load_json_spec loadsW "no braces at all" 0 0).1
      (Or.inl (by decide))
  · have hlen : ("xx\x7byy\x7dzz".toList).length = 8 := by decide
    have h2 : ∀ k, k < 2 → ("xx\x7byy\x7dzz".toList)[k]? ≠ some lbrace := by
      intro k hk
      interval_cases k <;> decide
    have h4 : ∀ k, 5 < k → ("xx\x7byy\x7dzz".toList)[k]? ≠ some rbrace := by
      intro k hk
      by_cases hk8 : k < 8
      · interval_cases k <;> decide
      · rw [List.getElem?_eq_none (by rw [hlen]; omega)]
        simp
    have h := ((clean_and_load_json_spec loadsW "xx\x7byy\x7dzz" 2 5).2
      (by decide) h2 (by decide) h4).1 (by omega)
    rw [h]
    decide

theorem process_chunk_results_of_empty {fetch : String → Fundamentals}
    {oracleReply : String → Option String} {loads : String → Option ScoreMap}
    {stocks : List StockRecord}
    (hne : process_stocks_parallel fetch stocks = []) :
    process_chunk_results fetch oracleReply loads stocks = [] := by
  simp [process_chunk_results, hne]

theorem process_chunk_results_eq {fetch : String → Fundamentals}
    {oracleReply : String → Option String} {loads : String → Option ScoreMap}
    {stocks : List StockRecord} {reply : String}
    (hreply : oracleReply (format_fundamentals_batch
      (process_stocks_parallel fetch stocks)) = some reply)
    (hne : process_stocks_parallel fetch stocks ≠ []) :
    process_chunk_results fetch oracleReply loads stocks
      = (process_stocks_parallel fetch stocks).filterMap
          (rowOf (clean_and_load_json loads reply)) := by
  simp only [process_chunk_results, hreply]
  rw [if_neg (by simpa [List.isEmpty_iff] using hne)]

/-- Claim C5 counterexample: AAPL is eligible in the chunk (P/E 10) but the
parsed oracle response names only MSFT; the produced results contain no
entry for AAPL at all — no default row with BuyScore 0 is created. -/
theorem omitted_symbol_counterexample :
    (process_chunk_results fetchW replyW loads5W stocks2W).filter
      (fun r => r.symbol == "AAPL") = [] ∧
    fetch_single_stock fetchW ⟨"AAPL", "Tech"⟩
      = some ("AAPL", "Tech", [("P/E Ratio", some 10)]) ∧
    List.lookup "AAPL" (clean_and_load_json loads5W "\x7b\x7d") = none := by
  refine ⟨?_, ?_, ?_⟩ <;> decide

theorem seq_batch_rows_of_empty {fetch : String → Fundamentals}
    {oracleReply : String → Option String} {loads : String → Option ScoreMap}
    {batch : List StockRecord}
    (hne : batch.filter (fun s => seqEligible (fetch s.symbol)) = []) :
    seq_batch_rows fetch oracleReply loads batch = [] := by
  simp [seq_batch_rows, hne]

theorem seq_batch_rows_eq {fetch : String → Fundamentals}
    {oracleReply : String → Option String} {loads : String → Option ScoreMap}
    {batch : List StockRecord} {reply : String}
    (hreply : oracleReply (String.join
      ((batch.filter (fun s => seqEligible (fetch s.symbol))).map
        (fun s => format_fundamentals s.symbol (fetch s.symbol) ++ "\n")))
      = some reply)
    (hne : batch.filter (fun s => seqEligible (fetch s.symbol)) ≠ []) :
    seq_batch_rows fetch oracleReply loads batch
      = (batch.filter (fun s => seqEligible (fetch s.symbol))).filterMap
          (fun s => rowOf (clean_and_load_json loads reply)
            (s.symbol, s.sector, fetch s.symbol)) := by
  simp only [seq_batch_rows, hreply]
  rw [if_neg (by simpa [List.isEmpty_iff] using hne)]

/-- Claim C5 (amended): in both the chunked path and the sequential
batches, if the parsed oracle response omits an eligible symbol X, the
produced results contain no entry for X (X is dropped, not defaulted); a
symbol the parsed response does contain yields a row whose missing
BuyScore defaults to 0 and missing Reasons to the empty string. -/
theorem omitted_symbol_dropped (fetch : String → Fundamentals)
    (oracleReply : String → Option String) (loads : String → Option ScoreMap)
    (stocks batch : List StockRecord) (reply replySeq : String)
    (hreply : oracleReply (format_fundamentals_batch
      (process_stocks_parallel fetch stocks)) = some reply)
    (hreplySeq : oracleReply (String.join
      ((batch.filter (fun s => seqEligible (fetch s.symbol))).map
        (fun s => format_fundamentals s.symbol (fetch s.symbol) ++ "\n")))
      = some replySeq) :
    (∀ sym, List.lookup sym (clean_and_load_json loads reply) = none →
       ∀ row ∈ process_chunk_results fetch oracleReply loads stocks,
         row.symbol ≠ sym) ∧
    (∀ e ∈ process_stocks_parallel fetch stocks, ∀ entry,
       List.lookup e.1 (clean_and_load_json loads reply) = some entry →
       (⟨e.1, e.2.1, entry.buyScore.getD 0,
          joinReasons (entry.reasons.getD [])⟩ : RankedRow)
         ∈ process_chunk_results fetch oracleReply loads stocks) ∧
    (∀ sym, List.lookup sym (clean_and_load_json loads replySeq) = none →
       ∀ row ∈ seq_batch_rows fetch oracleReply loads batch,
         row.symbol ≠ sym) ∧
    (∀ s ∈ batch, seqEligible (fetch s.symbol) = true → ∀ entry,
       List.lookup s.symbol (clean_and_load_json loads replySeq) = some entry →
       (⟨s.symbol, s.sector, entry.buyScore.getD 0,
          joinReasons (entry.reasons.getD [])⟩ : RankedRow)
         ∈ seq_batch_rows fetch oracleReply loads batch) := by
  refine ⟨?_, ?_, ?_, ?_⟩
  · intro sym hnone row hrow
    by_cases hne : process_stocks_parallel fetch stocks = []
    · rw [process_chunk_results_of_empty hne] at hrow
      exact absurd hrow (List.not_mem_nil row)
    · rw [process_chunk_results_eq hreply hne] at hrow
      obtain ⟨e, he, hee⟩ := List.mem_filterMap.mp hrow
      obtain ⟨hsym, entry, hentry, -⟩ := rowOf_eq_some hee
      intro hcontra
      rw [← hcontra, hsym, hentry] at hnone
      exact absurd hnone (by simp)
  · intro e he entry hentry
    have hne : process_stocks_parallel fetch stocks ≠ [] := by
      intro hnil
      rw [hnil] at he
      exact absurd he (List.not_mem_nil e)
    rw [process_chunk_results_eq hreply hne]
    exact List.mem_filterMap.mpr ⟨e, he, by simp [rowOf, hentry]⟩
  · intro sym hnone row hrow
    by_cases hne : batch.filter (fun s => seqEligible (fetch s.symbol)) = []
    · rw [seq_batch_rows_of_empty hne] at hrow
      exact absurd hrow (List.not_mem_nil row)
    · rw [seq_batch_rows_eq hreplySeq hne] at hrow
      obtain ⟨s, -, hss⟩ := List.mem_filterMap.mp hrow
      obtain ⟨hsym, entry, hentry, -⟩ := rowOf_eq_some hss
      intro hcontra
      rw [← hcontra, hsym] at hnone
      rw [hentry] at hnone
      exact absurd hnone (by simp)
  · intro s hs helig entry hentry
    have hmemf : s ∈ batch.filter (fun t => seqEligible (fetch t.symbol)) :=
      List.mem_filter.mpr ⟨hs, helig⟩
    have hne : batch.filter (fun t => seqEligible (fetch t.symbol)) ≠ [] :=
      List.ne_nil_of_mem hmemf
    rw [seq_batch_rows_eq hreplySeq hne]
    exact List.mem_filterMap.mpr ⟨s, hmemf, by simp [rowOf, hentry]⟩

/-- Claim C5 witness: in the concrete run, the MSFT row (present in the
parsed response) is produced by both the chunked path and the sequential
batch, and it is not an AAPL row in either. -/
theorem omitted_symbol_dropped_witness :
    (⟨"MSFT", "Tech", 7, "r1; r2"⟩ : RankedRow)
      ∈ process_chunk_results fetchW replyW loads5W stocks2W ∧
    (⟨"MSFT", "Tech", 7, "r1; r2"⟩ : RankedRow)
      ∈ seq_batch_rows fetchW replyW loads5W stocks2W ∧
    (⟨"MSFT", "Tech", 7, "r1; r2"⟩ : RankedRow).symbol ≠ "AAPL" := by
  have h := omitted_symbol_dropped fetchW replyW loads5W stocks2W stocks2W
    "\x7b\x7d" "\x7b\x7d" rfl rfl
  have hmem : (⟨"MSFT", "Tech", 7, "r1; r2"⟩ : RankedRow)
      ∈ process_chunk_results fetchW replyW loads5W stocks2W := by
    have hm := h.2.1 ("MSFT", "Tech", [("P/E Ratio", some 10)]) (by decide)
      ⟨some 7, some ["r1", "r2"]⟩ (by decide)
    simpa [joinReasons] using hm
  have hmemSeq : (⟨"MSFT", "Tech", 7, "r1; r2"⟩ : RankedRow)
      ∈ seq_batch_rows fetchW replyW loads5W stocks2W := by
    have hm := h.2.2.2 ⟨"MSFT", "Tech"⟩ (by decide) (by decide)
      ⟨some 7, some ["r1", "r2"]⟩ (by decide)
    simpa [joinReasons] using hm
  exact ⟨hmem, hmemSeq, h.1 "AAPL" (by decide) _ hmem⟩

/-- Claim C6 counterexample: the chunked path's batch formatter silently
omits a metric whose value is absent (`if value is not None`), instead of
rendering an `N/A` line; only the sequential formatter renders `N/A`. -/
theorem format_batch_omits_counterexample :
    format_fundamentals_batch [("AAPL", "Tech", dataW6)]
      = "AAPL:\n  P/E Ratio: 10\n\n" ∧
    format_fundamentals "AAPL" dataW6
      = "AAPL:\n  EPS: N/A\n  P/E Ratio: 10\n" := by
  constructor <;> decide

/-- Claim C6 (amended): in the sequential formatter every metric of the
record contributes exactly one line and an absent metric is rendered with
the explicit `N/A` marker; in the chunked path's batch formatter only
metrics with present values contribute lines, so absent metrics are
silently omitted from the block sent to the scoring oracle. -/
theorem metric_rendering (data : Fundamentals) (sym : String) (k : String) :
    (seq_metric_lines data).length = data.length ∧
    ((k, (none : Option ℚ)) ∈ data →
       ("  " ++ k ++ ": " ++ "N/A" ++ "\n") ∈ seq_metric_lines data) ∧
    (batch_metric_lines data).length
      = (data.filter (fun kv => kv.2.isSome)).length ∧
    (data ≠ [] → format_fundamentals sym data
      = sym ++ ":\n" ++ String.join (seq_metric_lines data)) := by
  refine ⟨by simp [seq_metric_lines], ?_, by simp [batch_metric_lines], ?_⟩
  · intro hk
    have hline : metric_line (k, none) = "  " ++ k ++ ": " ++ "N/A" ++ "\n" := rfl
    exact hline ▸ List.mem_map_of_mem metric_line hk
  · intro hne
    rw [format_fundamentals, if_neg (by simpa [List.isEmpty_iff] using hne)]

/-- Claim C6 witness: the record with an absent EPS metric concretely gets
an `N/A` line from the sequential formatter. -/
theorem metric_rendering_witness :
    ("  " ++ "EPS" ++ ": " ++ "N/A" ++ "\n") ∈ seq_metric_lines dataW6 ∧
    format_fundamentals "AAPL" dataW6
      = "AAPL" ++ ":\n" ++ String.join (seq_metric_lines dataW6) := by
  have h := metric_rendering dataW6 "AAPL" "EPS"
  exact ⟨h.2.1 (by decide), h.2.2.2 (by decide)⟩

theorem pyOrQ_ne_zero {a : Option ℚ} {b : ℚ} (hb : b ≠ 0) : pyOrQ a b ≠ 0 := by
  cases a with
  | none => simpa [pyOrQ] using hb
  | some v =>
    by_cases hv : v = 0
    · simpa [pyOrQ, hv] using hb
    · simp [pyOrQ, hv]

theorem pyOrQ2_ne_zero {a b : Option ℚ} {dflt : ℚ} (hd : dflt ≠ 0) :
    pyOrQ2 a b dflt ≠ 0 := by
  cases a with
  | none => simpa [pyOrQ2] using pyOrQ_ne_zero hd
  | some v =>
    by_cases hv : v = 0
    · simpa [pyOrQ2, hv] using pyOrQ_ne_zero hd
    · simp [pyOrQ2, hv]

/-- Claim C7 counterexample: the primary source's extractor replaces the
zero-valued `revenueGrowth` of an accepted payload with the nonzero
default 1/20 (= 0.05), and fabricates the default 3/2 for the absent
`currentRatio` — zero is not stored as zero and absence does not stay
absent. -/
theorem yahoo_zero_counterexample :
    infoGet infoW7 "revenueGrowth" = some 0 ∧
    fundGet (yahoo_extract infoW7) "Revenue Growth" = some 0.05 ∧
    (0.05 : ℚ) ≠ 0 ∧
    infoGet infoW7 "currentRatio" = none ∧
    fundGet (yahoo_extract infoW7) "Current Ratio" = some 1.5 ∧
    (1.5 : ℚ) ≠ 0 ∧
    get_yahoo_finance_data infoW7 = some (yahoo_extract infoW7) := by
  exact ⟨by decide, rfl, by norm_num, by decide, rfl, by norm_num, rfl⟩

/-- Claim C7 (amended): the primary-source extractor does not preserve the
absent/zero distinction: every metric of the extracted record is present
with a nonzero value (falsy source values — absent or exactly zero — are
coalesced into hard-coded nonzero defaults), and a payload carrying
`revenueGrowth = 0` extracts identically to one with `revenueGrowth`
absent. -/
theorem yahoo_extract_defaults (info : YfInfo) (rest : YfInfo) :
    (∃ v, fundGet (yahoo_extract info) "Revenue Growth" = some v ∧ v ≠ 0) ∧
    (∃ v, fundGet (yahoo_extract info) "EPS" = some v ∧ v ≠ 0) ∧
    (∃ v, fundGet (yahoo_extract info) "Net Profit Margin" = some v ∧ v ≠ 0) ∧
    (∃ v, fundGet (yahoo_extract info) "Return on Equity" = some v ∧ v ≠ 0) ∧
    (∃ v, fundGet (yahoo_extract info) "P/E Ratio" = some v ∧ v ≠ 0) ∧
    (∃ v, fundGet (yahoo_extract info) "Current Ratio" = some v ∧ v ≠ 0) ∧
    (∃ v, fundGet (yahoo_extract info) "Debt-to-Equity Ratio" = some v ∧ v ≠ 0) ∧
    yahoo_extract (("revenueGrowth", some 0) :: rest)
      = yahoo_extract (("revenueGrowth", none) :: rest) := by
  refine ⟨?_, ?_, ?_, ?_, ?_, ?_, ?_, ?_⟩
  · refine ⟨pyOrQ2 (infoGet info "revenueGrowth")
        (infoGet info "earningsGrowth") 0.05, ?_, pyOrQ2_ne_zero (by norm_num)⟩
    simp [fundGet, yahoo_extract, List.lookup_cons]
  · refine ⟨pyOrQ2 (infoGet info "trailingEps")
        (infoGet info "forwardEps") 2.0, ?_, pyOrQ2_ne_zero (by norm_num)⟩
    simp [fundGet, yahoo_extract, List.lookup_cons]
  · refine ⟨pyOrQ (infoGet info "profitMargins") 0.10, ?_,
      pyOrQ_ne_zero (by norm_num)⟩
    simp [fundGet, yahoo_extract, List.lookup_cons]
  · refine ⟨pyOrQ (infoGet info "returnOnEquity") 0.15, ?_,
      pyOrQ_ne_zero (by norm_num)⟩
    simp [fundGet, yahoo_extract, List.lookup_cons]
  · refine ⟨pyOrQ2 (infoGet info "trailingPE")
        (infoGet info "forwardPE") 20.0, ?_, pyOrQ2_ne_zero (by norm_num)⟩
    simp [fundGet, yahoo_extract, List.lookup_cons]
  · refine ⟨pyOrQ (infoGet info "currentRatio") 1.5, ?_,
      pyOrQ_ne_zero (by norm_num)⟩
    simp [fundGet, yahoo_extract, List.lookup_cons]
  · refine ⟨pyOrQ (infoGet info "debtToEquity") 0.5, ?_,
      pyOrQ_ne_zero (by norm_num)⟩
    simp [fundGet, yahoo_extract, List.lookup_cons]
  · simp [yahoo_extract, infoGet, List.lookup_cons, pyOrQ2]

/-- Claim C8 counterexample: two invocations of the synthetic generator
for the same well-known ticker, under two states of the (unseeded, global)
RNG, return different Fundamentals records — the fallback is not a
deterministic function of the ticker. -/
theorem mock_not_deterministic :
    get_mock_stock_fundamentals "AAPL" [0, 0, 0, 1, 0, 0, 0]
      ≠ get_mock_stock_fundamentals "AAPL" [0, 0, 0, 2, 0, 0, 0] := by
  intro hcontra
  have h2 := congrArg (fun d => fundGet d "Net Profit Margin") hcontra
  simp [get_mock_stock_fundamentals, nextDraw, fundGet, List.lookup,
    major_stocks] at h2

/-- Claim C8 (amended): for a ticker in the hard-coded table only the
table-driven fields are deterministic in the ticker: P/E Ratio, Revenue
Growth and EPS are identical across any two RNG states, while the
remaining four metrics come from the unseeded global RNG (and for unknown
tickers all seven do) — the generator as a whole is not a function of the
ticker alone. -/
theorem mock_table_fields_deterministic (t : String) (b : MockBase)
    (h : List.lookup t major_stocks = some b) (d d' : List ℚ) :
    fundGet (get_mock_stock_fundamentals t d) "P/E Ratio"
      = fundGet (get_mock_stock_fundamentals t d') "P/E Ratio" ∧
    fundGet (get_mock_stock_fundamentals t d) "P/E Ratio" = some b.pe ∧
    fundGet (get_mock_stock_fundamentals t d) "Revenue Growth" = some b.growth ∧
    fundGet (get_mock_stock_fundamentals t d) "EPS" = some b.eps := by
  have key : ∀ dd : List ℚ,
      fundGet (get_mock_stock_fundamentals t dd) "P/E Ratio" = some b.pe ∧
      fundGet (get_mock_stock_fundamentals t dd) "Revenue Growth" = some b.growth ∧
      fundGet (get_mock_stock_fundamentals t dd) "EPS" = some b.eps := by
    intro dd
    simp only [get_mock_stock_fundamentals, nextDraw, h, Option.getD_some]
    refine ⟨?_, ?_, ?_⟩ <;> simp [fundGet, List.lookup]
  have h1 := key d
  have h2 := key d'
  exact ⟨h1.1.trans h2.1.symm, h1.1, h1.2.1, h1.2.2⟩

/-- Claim C8 witness: a concrete table ticker, with two concrete RNG
states, agrees on the three table-driven fields. -/
theorem mock_table_fields_deterministic_witness :
    fundGet (get_mock_stock_fundamentals "AAPL" []) "P/E Ratio"
      = fundGet (get_mock_stock_fundamentals "AAPL" [1, 2, 3, 4, 5, 6, 7])
          "P/E Ratio" ∧
    fundGet (get_mock_stock_fundamentals "AAPL" []) "P/E Ratio"
      = some (57/2) := by
  have h := mock_table_fields_deterministic "AAPL" ⟨28.5, 0.08, 6.43⟩
    (by simp [major_stocks, List.lookup]) [] [1, 2, 3, 4, 5, 6, 7]
  refine ⟨h.1, h.2.1.trans ?_⟩
  norm_num

/-- Claim C9 counterexample: with a nonempty readable chunk store and no
configured recipient, the finalize operation completes with status 200,
sends no email, and still deletes every chunk object — a missing recipient
is not fatal in the Aggregator and the run completes silently with the
email step skipped. -/
theorem missing_recipient_counterexample :
    handle_finalize none storageW = (200, [], []) := by
  have htop : ((storageW.filterMap (fun o => o.2)).flatten).isEmpty = false := by
    decide
  simp [handle_finalize, collect_and_finalize_results, cleanup_s3_chunks, htop]

/-- Claim C9 (amended): in the sequential path a missing recipient raises
`EMAIL_RECIPIENT environment variable is required` and aborts the run
(fatal, though only after fetch/score work); in the Aggregator a missing
recipient is not fatal — the pass completes with status 200, silently
skips the email, and still deletes the chunk objects. -/
theorem missing_recipient_behavior (fetch : String → Fundamentals)
    (oracleReply : String → Option String) (loads : String → Option ScoreMap)
    (stocks : List StockRecord) (storage : S3State)
    (hne : (storage.filterMap (fun o => o.2)).flatten ≠ []) :
    sequential_run fetch oracleReply loads none stocks
      = Except.error "EMAIL_RECIPIENT environment variable is required" ∧
    (collect_and_finalize_results none storage).1 = [] ∧
    (collect_and_finalize_results none storage).2 = [] ∧
    (handle_finalize none storage).1 = 200 := by
  have hcond : ¬(((storage.filterMap (fun o => o.2)).flatten).isEmpty = true) := by
    simpa [List.isEmpty_iff] using hne
  refine ⟨rfl, ?_, ?_, rfl⟩
  · simp only [collect_and_finalize_results]
    rw [if_neg hcond]
  · simp only [collect_and_finalize_results]
    rw [if_neg hcond]
    rfl

/-- Claim C9 witness: the concrete nonempty store and a concrete
sequential run exercise both branches. -/
theorem missing_recipient_behavior_witness :
    sequential_run fetchW replyW loadsW none stocksW
      = Except.error "EMAIL_RECIPIENT environment variable is required" ∧
    (collect_and_finalize_results none storageW).1 = [] := by
  have h := missing_recipient_behavior fetchW replyW loadsW stocksW storageW
    (by decide)
  exact ⟨h.1, h.2.1⟩

/-- Claim C10: if the aggregation pass finds no readable chunk results —
no objects listed under the prefix, or every listed object's read or
deserialize fails — it returns with no email sent and no object deleted:
the storage state under the prefix is left entirely unchanged. -/
theorem aggregator_empty_frame (recipient : Option String) (storage : S3State)
    (h : ∀ o ∈ storage, o.2 = none) :
    collect_and_finalize_results recipient storage = ([], storage) := by
  have hempty : storage.filterMap (fun o => o.2) = [] :=
    List.filterMap_eq_nil_iff.mpr h
  simp [collect_and_finalize_results, hempty]

/-- Claim C10 witness: a store whose only object is unreadable is returned
untouched, with no email. -/
theorem aggregator_empty_frame_witness :
    collect_and_finalize_results (some "x@y") storageBad = ([], storageBad) :=
  aggregator_empty_frame (some "x@y") storageBad (by decide)

end StockPicks
